import Mathlib

/-!
# Verification of the `stacked-svg` diagram ingestion and composition pipeline

This file is a shallow embedding, in Lean 4, of the core pipeline of the
`stacked-svg` Go program (`main.go`): the level classifier, the SVG metadata
extractor, the fragment cleaner, the fragment pretty-printer, the diagram
loader and the composite document builder.  Theorems about these definitions
settle the behavioural claims made by the program's specification.

Modelling conventions:

* Go strings are modelled by `String` / `List Char`.  Scanning functions that
  Go expresses with `regexp` are hand-compiled here into deterministic
  character scanners with the same leftmost-first semantics as Go's RE2
  engine on the concrete patterns used by the program (each compilation is
  justified in a comment next to the scanner).
* Go `float64` values are modelled as exact rationals (`ℚ`).
  `strconv.ParseFloat` is modelled by a decimal parser (sign, digits,
  fraction, exponent); the claims never involve hex floats, `inf`, `nan`,
  underscores or rounding, where the two differ.  Note one divergence used
  below: Go's `400.0/0.0` is `+Inf` while `(400 : ℚ)/0 = 0`; both violate
  positivity, which is all any claim needs.
* Go's `encoding/xml` decoder and encoder (used by `ValidateXML` and
  `prettyPrintXML`) are modelled by an explicit tokenizer and an indenting
  printer that follow the Go implementation: start/end/self-closing tags,
  attributes, character data with entity decoding and CR normalisation, and
  comments are supported; processing instructions, directives and CDATA are
  rejected by the model (no claim exercises them).  The printer reproduces
  Go's `printer.writeIndent` state machine (`depth` / `putNewline` /
  `indentedIn`) with the `Indent("      ", "  ")` configuration from
  `prettyPrintXML`, Go's escaping of character data (newlines kept literal,
  tabs/CR/quotes escaped) and of attribute values.  Namespace prefixes are
  kept as raw text (the program wraps fragments in a root element that
  redeclares `xmlns:xlink` precisely so that the Go serializer leaves
  prefixed attributes intact; the raw-name model reproduces that behaviour).
* The filesystem is modelled by passing `loadDiagrams` the sorted list of
  `(base name, file content)` pairs that `filepath.Glob(inputDir + "/*.svg")`
  would produce.
* The embedded `navigation.js` asset is opaque data to the pipeline; it is
  modelled by a placeholder constant.  No claim depends on its text.
-/

namespace StackedSVG

/-! ## Basic list-of-characters utilities -/

/-- `listStartsWith pat l` : `l` begins with `pat`. -/
def listStartsWith : List Char → List Char → Bool
  | [], _ => true
  | _ :: _, [] => false
  | p :: ps, c :: cs => p == c && listStartsWith ps cs

/-- `occursIn pat l` : `pat` occurs as a contiguous substring of `l`. -/
def occursIn (pat : List Char) : List Char → Bool
  | [] => listStartsWith pat []
  | c :: cs => listStartsWith pat (c :: cs) || occursIn pat cs

/-- Number of (possibly overlapping) occurrences of `pat` in `l`.  All the
patterns counted by the claims (`<script`, `<a`, `</a>`, `onclick=...`)
cannot overlap themselves, so this agrees with Go's non-overlapping
`strings.Count` wherever a claim uses it. -/
def countOcc (pat : List Char) : List Char → Nat
  | [] => 0
  | c :: cs => (if listStartsWith pat (c :: cs) then 1 else 0) + countOcc pat cs

/-- Substring count at the `String` level. -/
def countOccS (pat s : String) : Nat := countOcc pat.data s.data

/-- Decidable equality for fallible results (used to state concrete
evaluations of the pipeline). -/
instance {α β : Type} [DecidableEq α] [DecidableEq β] : DecidableEq (Except α β) :=
  fun a b =>
    match a, b with
    | .error x, .error y =>
      if h : x = y then .isTrue (by rw [h]) else .isFalse (by intro hh; cases hh; exact h rfl)
    | .error _, .ok _ => .isFalse (by intro hh; cases hh)
    | .ok _, .error _ => .isFalse (by intro hh; cases hh)
    | .ok x, .ok y =>
      if h : x = y then .isTrue (by rw [h]) else .isFalse (by intro hh; cases hh; exact h rfl)

/-- RE2's `\s` character class: `[\t\n\x0c\r ]`. -/
def isWS (c : Char) : Bool :=
  c == ' ' || c == '\t' || c == '\n' || c == '\r' || c == '\x0c'

/-! ## The fragment cleaner (`cleanDiagramContent`, main.go:626-650)

The three Go regexes are hand-compiled to scanners.

`<script[^>]*>.*?</script>` : after the literal `<script`, the greedy
`[^>]*` followed by the literal `>` can only consume exactly up to the first
`>` (backtracking cannot place the literal `>` on a non-`>` character), and
the lazy `.*?` followed by `</script>` matches the shortest run of
non-newline characters ending just before the first `</script>` (RE2's `.`
does not match `\n` and no `(?s)` flag is set). -/

/-- Consume `[^>]*>`: drop everything up to and including the first `>`.
`none` if there is no `>`. -/
def dropToGt : List Char → Option (List Char)
  | [] => none
  | c :: cs => if c == '>' then some cs else dropToGt cs

/-- Consume `.*?</script>` (`.` excludes newline): drop the shortest
newline-free run followed by `</script>`, returning what follows. -/
def dropToCloseScript : List Char → Option (List Char)
  | [] => none
  | c :: cs =>
    if listStartsWith ("</script>".data) (c :: cs) then some (List.drop 8 cs)
    else if c == '\n' then none
    else dropToCloseScript cs

/-- Attempt to match `<script[^>]*>.*?</script>` starting exactly here;
returns the remainder after the match. -/
def matchScriptAt (l : List Char) : Option (List Char) :=
  if listStartsWith ("<script".data) l then
    match dropToGt (List.drop 7 l) with
    | none => none
    | some rest => dropToCloseScript rest
  else none

/-- `scriptRegex.ReplaceAllString(content, "")`: leftmost-first scan deleting
every match. -/
def removeScriptsAux : Nat → List Char → List Char
  | 0, l => l
  | _ + 1, [] => []
  | fuel + 1, c :: cs =>
    match matchScriptAt (c :: cs) with
    | some rest => removeScriptsAux fuel rest
    | none => c :: removeScriptsAux fuel cs

def removeScripts (l : List Char) : List Char :=
  removeScriptsAux (l.length + 1) l

/-! Compilation of `(<g[^>]*>)\s*<a\s+[^>]*href="[^"]*"[^>]*>(.*?)</a>`:

* `(<g[^>]*>)` — literal `<g`, then everything up to and including the first
  `>` (deterministic, as for `<script` above); the group is the whole tag.
* `\s*<a` — a maximal whitespace run followed by the literal `<a`
  (deterministic: backtracking would have to match `<` on a whitespace
  character).
* `\s+[^>]*href="` — at least one whitespace character; the greedy `\s+`
  takes the maximal run, after which the greedy `[^>]*` tries the *last*
  occurrence of `href="` inside the run of non-`>` characters first and
  backtracks towards earlier occurrences (shortening `\s+` instead cannot
  create new candidate positions, because `href="` cannot start on a
  whitespace character).
* `[^"]*"` — up to and including the first `"` (may run past `>`: `>` is not
  excluded by `[^"]`).
* `[^>]*>` — up to and including the first `>`.
* `(.*?)</a>` — lazy: the shortest newline-free run followed by `</a>`.
-/

/-- Consume `[^>]*>` but also return the consumed text (including the `>`). -/
def takeToGt : List Char → Option (List Char × List Char)
  | [] => none
  | c :: cs =>
    if c == '>' then some ([c], cs)
    else
      match takeToGt cs with
      | none => none
      | some (t, r) => some (c :: t, r)

/-- Consume `[^"]*"`: drop everything up to and including the first `"`. -/
def dropToQuote : List Char → Option (List Char)
  | [] => none
  | c :: cs => if c == '"' then some cs else dropToQuote cs

/-- Consume `(.*?)</a>` (`.` excludes newline): return the captured shortest
newline-free run and the remainder after `</a>`. -/
def dropToCloseA : List Char → Option (List Char × List Char)
  | [] => none
  | c :: cs =>
    if listStartsWith ("</a>".data) (c :: cs) then some ([], List.drop 3 cs)
    else if c == '\n' then none
    else
      match dropToCloseA cs with
      | none => none
      | some (cap, r) => some (c :: cap, r)

/-- Candidate suffixes at which `href="` starts, inside the leading run of
non-`>` characters, in left-to-right order. -/
def collectHrefCands : List Char → List (List Char)
  | [] => []
  | c :: cs =>
    if c == '>' then []
    else
      let rest := collectHrefCands cs
      if listStartsWith ("href=\"".data) (c :: cs) then (c :: cs) :: rest else rest

/-- Continue the match after an `href="` candidate: `[^"]*"[^>]*>(.*?)</a>`.
Returns (captured inner content, remainder after `</a>`). -/
def gaTail (l : List Char) : Option (List Char × List Char) :=
  match dropToQuote l with
  | none => none
  | some r1 =>
    match dropToGt r1 with
    | none => none
    | some r2 => dropToCloseA r2

/-- Try `href="` candidates in the backtracking order (rightmost first). -/
def tryCandidates : List (List Char) → Option (List Char × List Char)
  | [] => none
  | cand :: rest =>
    match gaTail (List.drop 6 cand) with
    | some res => some res
    | none => tryCandidates rest

/-- Attempt the full anchor-wrapper pattern at this position.  Returns
(the `<g...>` tag text, the captured inner content, the remainder). -/
def matchGAAt (l : List Char) : Option (List Char × List Char × List Char) :=
  if listStartsWith ("<g".data) l then
    match takeToGt (List.drop 2 l) with
    | none => none
    | some (tagTail, r1) =>
      let gTag := '<' :: 'g' :: tagTail
      let r2 := r1.dropWhile isWS
      if listStartsWith ("<a".data) r2 then
        let r3 := List.drop 2 r2
        match r3 with
        | [] => none
        | c :: _ =>
          if isWS c then
            let r4 := r3.dropWhile isWS
            match tryCandidates (collectHrefCands r4).reverse with
            | some (inner, rest) => some (gTag, inner, rest)
            | none => none
          else none
      else none
  else none

/-- The onclick/style attribute text inserted by the rewrite. -/
def onclickIns : List Char :=
  (" onclick=\"navigateDown()\" style=\"cursor:pointer;\"").data

/-- `strings.Replace(gTag, ">", " onclick=...>", 1)`: splice the insertion in
front of the first `>`. -/
def replaceFirstGt : List Char → List Char
  | [] => []
  | c :: cs => if c == '>' then onclickIns ++ '>' :: cs else c :: replaceFirstGt cs

/-- `aTagRegex.ReplaceAllStringFunc`: leftmost-first scan; each match is
replaced by the `<g>` tag with the onclick insertion followed by the inner
content (the hyperlink wrapper disappears).  Go re-runs the regex on the
matched text via `FindStringSubmatch`; on its own match the deterministic
scan reproduces the same groups, so the model uses them directly. -/
def rewriteGAAux : Nat → List Char → List Char
  | 0, l => l
  | _ + 1, [] => []
  | fuel + 1, c :: cs =>
    match matchGAAt (c :: cs) with
    | some (gTag, inner, rest) =>
      replaceFirstGt gTag ++ inner ++ rewriteGAAux fuel rest
    | none => c :: rewriteGAAux fuel cs

def rewriteGA (l : List Char) : List Char :=
  rewriteGAAux (l.length + 1) l

/-- Attempt `<a\s+[^>]*>` at this position: literal `<a`, at least one
whitespace character, then everything up to and including the first `>`
(whitespace is also matched by `[^>]`, so the two classes together consume
exactly up to the first `>`). -/
def matchATagAt (l : List Char) : Option (List Char) :=
  if listStartsWith ("<a".data) l then
    match List.drop 2 l with
    | [] => none
    | c :: cs => if isWS c then dropToGt (c :: cs) else none
  else none

/-- `regexp.MustCompile("<a\\s+[^>]*>").ReplaceAllString(content, "")`. -/
def removeATagsAux : Nat → List Char → List Char
  | 0, l => l
  | _ + 1, [] => []
  | fuel + 1, c :: cs =>
    match matchATagAt (c :: cs) with
    | some rest => removeATagsAux fuel rest
    | none => c :: removeATagsAux fuel cs

def removeATags (l : List Char) : List Char :=
  removeATagsAux (l.length + 1) l

/-- `strings.ReplaceAll(content, "</a>", "")`. -/
def removeCloseAAux : Nat → List Char → List Char
  | 0, l => l
  | _ + 1, [] => []
  | fuel + 1, c :: cs =>
    if listStartsWith ("</a>".data) (c :: cs) then
      removeCloseAAux fuel (List.drop 3 cs)
    else c :: removeCloseAAux fuel cs

def removeCloseA (l : List Char) : List Char :=
  removeCloseAAux (l.length + 1) l

/-- main.go:626-650.  The level argument is accepted but unused by the
current rewrite, exactly as in the source. -/
def cleanDiagramContent (content : String) (_currentLevel : String) : String :=
  String.mk (removeCloseA (removeATags (rewriteGA (removeScripts content.data))))

/-! ## Model of the `encoding/xml` token stream

`ValidateXML` (main.go:42-54) and `prettyPrintXML` (main.go:582-624) drive
Go's streaming XML decoder and encoder.  The model below reproduces the
decoder's strict-mode behaviour: start/end/self-closing elements with
quoted attributes and validated names, character data with entity decoding,
CR normalisation and the `]]>` check, comments, CDATA sections (emitted as
character data, no entity decoding), processing instructions and
directives (with quote and bracket nesting, embedded comments skipped).

Documented simplifications: name validity implements the ASCII fragment of
Go's `isName`/`isNameByte` tables (Go additionally admits non-ASCII letters;
every name this program's SVG inputs use is ASCII); the `<?xml ...?>`
declaration's encoding attribute is not inspected (Go errors on encodings
other than UTF-8 when no `CharsetReader` is installed); tokens carry the
raw uninterpreted name and `localName` projects the part after the first
colon exactly where Go reads `Name.Local` (Go's decoder additionally
resolves prefixes to namespace URLs and its encoder re-derives prefixed
names, injecting `xmlns` declarations — the round-trip theorems below
therefore restrict themselves to colon-free names, where both serializers
agree). -/

inductive XTok where
  | startEl (name : String) (attrs : List (String × String)) : XTok
  | endEl (name : String) : XTok
  | charData (s : String) : XTok
  | commentTok (s : String) : XTok
  | procInst (target : String) (inst : String) : XTok
  | directive (s : String) : XTok
deriving Repr, DecidableEq, Inhabited

/-- Go splits an XML name at the first colon into (prefix, local part) and
exposes the local part as `Name.Local`. -/
def localName (n : String) : String :=
  match n.data.dropWhile (fun c => c ≠ ':') with
  | [] => n
  | _ :: rest => String.mk rest

/-- Decode one character entity; the input starts right after `&`.
Returns the decoded character and the remainder after `;`. -/
def decodeEntity (l : List Char) : Option (Char × List Char) :=
  let nm := l.takeWhile (fun c => c ≠ ';')
  match l.dropWhile (fun c => c ≠ ';') with
  | [] => none
  | _ :: rest =>
    match nm with
    | ['l', 't'] => some ('<', rest)
    | ['g', 't'] => some ('>', rest)
    | ['a', 'm', 'p'] => some ('&', rest)
    | ['q', 'u', 'o', 't'] => some ('"', rest)
    | ['a', 'p', 'o', 's'] => some ('\'', rest)
    | '#' :: 'x' :: hex =>
      if hex ≠ [] && hex.all (fun c => c.isDigit || ('a' ≤ c && c ≤ 'f') || ('A' ≤ c && c ≤ 'F')) then
        let v := hex.foldl (fun a c =>
          16 * a + (if c.isDigit then c.toNat - 48
                    else if 'a' ≤ c then c.toNat - 87 else c.toNat - 55)) 0
        if v.isValidChar then some (Char.ofNat v, rest) else none
      else none
    | '#' :: dec =>
      if dec ≠ [] && dec.all Char.isDigit then
        let v := dec.foldl (fun a c => 10 * a + (c.toNat - 48)) 0
        if v.isValidChar then some (Char.ofNat v, rest) else none
      else none
    | _ => none

/-- Scan character data up to the next `<` (or the end), decoding entities
and normalising `\r\n` / `\r` to `\n` as Go's decoder does; a literal `]]>`
outside a CDATA section is an error in strict mode. -/
def scanText : Nat → List Char → Except String (List Char × List Char)
  | 0, _ => .error "internal: fuel exhausted"
  | _ + 1, [] => .ok ([], [])
  | fuel + 1, c :: cs =>
    if c == '<' then .ok ([], c :: cs)
    else if listStartsWith ("]]>".data) (c :: cs) then
      .error "unescaped closing of a CDATA section not inside CDATA"
    else if c == '&' then
      match decodeEntity cs with
      | none => .error "invalid character entity"
      | some (ch, rest) =>
        match scanText fuel rest with
        | .error e => .error e
        | .ok (t, r) => .ok (ch :: t, r)
    else if c == '\r' then
      match scanText fuel (if cs.head? == some '\n' then cs.tail else cs) with
      | .error e => .error e
      | .ok (t, r) => .ok ('\n' :: t, r)
    else
      match scanText fuel cs with
      | .error e => .error e
      | .ok (t, r) => .ok (c :: t, r)

/-- Scan a quoted attribute value terminated by `q`, decoding entities;
a raw `<` inside the value is an error, as in Go. -/
def scanAttrValue : Nat → Char → List Char → Except String (List Char × List Char)
  | 0, _, _ => .error "internal: fuel exhausted"
  | _ + 1, _, [] => .error "unexpected EOF"
  | fuel + 1, q, c :: cs =>
    if c == q then .ok ([], cs)
    else if c == '<' then .error "unescaped < inside quoted string"
    else if c == '&' then
      match decodeEntity cs with
      | none => .error "invalid character entity"
      | some (ch, rest) =>
        match scanAttrValue fuel q rest with
        | .error e => .error e
        | .ok (t, r) => .ok (ch :: t, r)
    else
      match scanAttrValue fuel q cs with
      | .error e => .error e
      | .ok (t, r) => .ok (c :: t, r)

/-- Go's `isNameByte`: the bytes the scanner accepts inside an XML name. -/
def isNameByte (c : Char) : Bool :=
  ('A' ≤ c && c ≤ 'Z') || ('a' ≤ c && c ≤ 'z') || ('0' ≤ c && c ≤ '9') ||
  c == '_' || c == ':' || c == '.' || c == '-'

/-- First character of a valid XML name (the ASCII rows of Go's `first`
range table used by `isName`). -/
def isNameStartChar (c : Char) : Bool :=
  ('A' ≤ c && c ≤ 'Z') || ('a' ≤ c && c ≤ 'z') || c == '_' || c == ':'

/-- Go's `isName` over a name already scanned with `isNameByte`: the ASCII
continuation bytes are all valid, so only the first character needs the
stricter check. -/
def isNameValid : List Char → Bool
  | [] => false
  | c :: _ => isNameStartChar c

/-- Parse the attribute list of a start tag (the attribute loop of Go's
`rawToken`): read a validated name, an optional-whitespace `=`, then a
quoted value.  Returns (attributes, self-closing?, remainder after `>`). -/
def parseAttrs : Nat → List Char → List (String × String) →
    Except String (List (String × String) × Bool × List Char)
  | 0, _, _ => .error "internal: fuel exhausted"
  | _ + 1, [], _ => .error "unexpected EOF"
  | fuel + 1, c :: cs, acc =>
    if isWS c then parseAttrs fuel cs acc
    else if c == '>' then .ok (acc.reverse, false, cs)
    else if c == '/' then
      if cs.head? == some '>' then .ok (acc.reverse, true, cs.tail)
      else .error "expected a closing angle bracket after the slash in element"
    else
      let nm := (c :: cs).takeWhile isNameByte
      let r1 := (c :: cs).dropWhile isNameByte
      if nm.isEmpty then .error "expected attribute name in element"
      else if !isNameValid nm then .error "invalid XML name"
      else
        let r2 := r1.dropWhile isWS
        match r2 with
        | '=' :: r3 =>
          let r4 := r3.dropWhile isWS
          match r4 with
          | '"' :: r5 =>
            match scanAttrValue fuel '"' r5 with
            | .error e => .error e
            | .ok (v, r6) => parseAttrs fuel r6 ((String.mk nm, String.mk v) :: acc)
          | '\'' :: r5 =>
            match scanAttrValue fuel '\'' r5 with
            | .error e => .error e
            | .ok (v, r6) => parseAttrs fuel r6 ((String.mk nm, String.mk v) :: acc)
          | _ => .error "unquoted or missing attribute value"
        | _ => .error "attribute name without = in element"

/-- Scan a comment body after `<!--`, up to `-->`. -/
def scanComment : Nat → List Char → Except String (List Char × List Char)
  | 0, _ => .error "internal: fuel exhausted"
  | _ + 1, [] => .error "unterminated comment"
  | fuel + 1, c :: cs =>
    if listStartsWith ("-->".data) (c :: cs) then .ok ([], List.drop 2 cs)
    else
      match scanComment fuel cs with
      | .error e => .error e
      | .ok (t, r) => .ok (c :: t, r)

/-- Scan a processing-instruction body (after the target name) up to the
first `?` immediately followed by a closing angle bracket. -/
def scanPIBody : Nat → List Char → Except String (List Char × List Char)
  | 0, _ => .error "internal: fuel exhausted"
  | _ + 1, [] => .error "unterminated processing instruction"
  | fuel + 1, c :: cs =>
    if listStartsWith ("?>".data) (c :: cs) then .ok ([], List.drop 1 cs)
    else
      match scanPIBody fuel cs with
      | .error e => .error e
      | .ok (t, r) => .ok (c :: t, r)

/-- Scan a CDATA body after the opening sequence, up to `]]>`, with the
same CR normalisation as character data but no entity decoding. -/
def scanCData : Nat → List Char → Except String (List Char × List Char)
  | 0, _ => .error "internal: fuel exhausted"
  | _ + 1, [] => .error "unterminated CDATA section"
  | fuel + 1, c :: cs =>
    if listStartsWith ("]]>".data) (c :: cs) then .ok ([], List.drop 2 cs)
    else if c == '\r' then
      match scanCData fuel (if cs.head? == some '\n' then cs.tail else cs) with
      | .error e => .error e
      | .ok (t, r) => .ok ('\n' :: t, r)
    else
      match scanCData fuel cs with
      | .error e => .error e
      | .ok (t, r) => .ok (c :: t, r)

/-- Scan a directive body after `<!` up to the matching closing angle
bracket, as Go's `rawToken` does: quoted runs and nested angle-bracket
pairs do not terminate it, and embedded `<!--` comments (at nesting depth
zero) are skipped without being accumulated. -/
def scanDirective : Nat → List Char → Option Char → Nat →
    Except String (List Char × List Char)
  | 0, _, _, _ => .error "internal: fuel exhausted"
  | _ + 1, [], _, _ => .error "unterminated directive"
  | fuel + 1, c :: cs, some qc, depth =>
    match scanDirective fuel cs (if c == qc then none else some qc) depth with
    | .error e => .error e
    | .ok (t, r) => .ok (c :: t, r)
  | fuel + 1, c :: cs, none, depth =>
    if c == '>' then
      if depth == 0 then .ok ([], cs)
      else
        match scanDirective fuel cs none (depth - 1) with
        | .error e => .error e
        | .ok (t, r) => .ok (c :: t, r)
    else if c == '\'' || c == '"' then
      match scanDirective fuel cs (some c) depth with
      | .error e => .error e
      | .ok (t, r) => .ok (c :: t, r)
    else if c == '<' then
      if depth == 0 && listStartsWith ("!--".data) cs then
        match scanComment fuel (List.drop 3 cs) with
        | .error _ => .error "unterminated directive"
        | .ok (_, r) => scanDirective fuel r none depth
      else
        match scanDirective fuel cs none (depth + 1) with
        | .error e => .error e
        | .ok (t, r) => .ok (c :: t, r)
    else
      match scanDirective fuel cs none depth with
      | .error e => .error e
      | .ok (t, r) => .ok (c :: t, r)

/-- The streaming decoder: one token per iteration, with the open-element
stack enforcing well-formed nesting (strict mode). -/
def decodeAux : Nat → List Char → List String → List XTok → Except String (List XTok)
  | 0, _, _, _ => .error "internal: fuel exhausted"
  | _ + 1, [], stack, acc =>
    if stack.isEmpty then .ok acc.reverse else .error "unexpected EOF"
  | fuel + 1, c :: cs, stack, acc =>
    if listStartsWith ("</".data) (c :: cs) then
      let r0 := List.drop 1 cs
      let nm := r0.takeWhile isNameByte
      let r1 := r0.dropWhile isNameByte
      if nm.isEmpty then .error "expected element name in end tag"
      else if !isNameValid nm then .error "invalid XML name"
      else
        let r1w := r1.dropWhile isWS
        if r1w.head? == some '>' then
          match stack.head? with
          | none => .error "unexpected end element"
          | some top =>
            if top == String.mk nm then
              decodeAux fuel r1w.tail stack.tail (XTok.endEl (String.mk nm) :: acc)
            else .error "mismatched end element"
        else .error "invalid characters between end-tag name and closing angle bracket"
    else if listStartsWith ("<?".data) (c :: cs) then
      let r0 := List.drop 1 cs
      let nm := r0.takeWhile isNameByte
      let r1 := r0.dropWhile isNameByte
      if nm.isEmpty then .error "expected target name in processing instruction"
      else if !isNameValid nm then .error "invalid XML name"
      else
        match scanPIBody fuel r1 with
        | .error e => .error e
        | .ok (t, r) =>
          decodeAux fuel r stack (XTok.procInst (String.mk nm) (String.mk t) :: acc)
    else if listStartsWith ("<!--".data) (c :: cs) then
      match scanComment fuel (List.drop 3 cs) with
      | .error e => .error e
      | .ok (t, r) => decodeAux fuel r stack (XTok.commentTok (String.mk t) :: acc)
    else if listStartsWith ("<!-".data) (c :: cs) then
      .error "invalid sequence not part of a comment"
    else if listStartsWith ("<![CDATA[".data) (c :: cs) then
      match scanCData fuel (List.drop 8 cs) with
      | .error e => .error e
      | .ok (t, r) => decodeAux fuel r stack (XTok.charData (String.mk t) :: acc)
    else if listStartsWith ("<![".data) (c :: cs) then
      .error "invalid CDATA opening sequence"
    else if listStartsWith ("<!".data) (c :: cs) then
      match scanDirective fuel (List.drop 1 cs) none 0 with
      | .error e => .error e
      | .ok (t, r) => decodeAux fuel r stack (XTok.directive (String.mk t) :: acc)
    else if c == '<' then
      let nm := cs.takeWhile isNameByte
      let r1 := cs.dropWhile isNameByte
      if nm.isEmpty then .error "expected element name in start tag"
      else if !isNameValid nm then .error "invalid XML name"
      else
        match parseAttrs fuel r1 [] with
        | .error e => .error e
        | .ok (attrs, selfClose, rest) =>
          if selfClose then
            decodeAux fuel rest stack
              (XTok.endEl (String.mk nm) :: XTok.startEl (String.mk nm) attrs :: acc)
          else
            decodeAux fuel rest (String.mk nm :: stack)
              (XTok.startEl (String.mk nm) attrs :: acc)
    else
      match scanText fuel (c :: cs) with
      | .error e => .error e
      | .ok (t, r) =>
        if t.isEmpty then decodeAux fuel r stack acc
        else decodeAux fuel r stack (XTok.charData (String.mk t) :: acc)

/-- Decode a whole document into its token list. -/
def decodeAll (s : String) : Except String (List XTok) :=
  decodeAux (s.data.length + 1) s.data [] []

structure PState where
  depth : Nat
  putNewline : Bool
  indentedIn : Bool
deriving Repr, DecidableEq

def ppPrefixStr : String := "      "

def ppIndentStr : String := "  "

/-- `printer.writeIndent(depthDelta)`: returns the emitted whitespace and
the updated printer state. -/
def writeIndent (st : PState) (delta : Int) : String × PState :=
  if delta < 0 then
    let d := st.depth - 1
    if st.indentedIn then ("", { st with depth := d, indentedIn := false })
    else
      let out := (if st.putNewline then "\n" else "") ++ ppPrefixStr ++
        String.join (List.replicate d ppIndentStr)
      (out, { depth := d, putNewline := true, indentedIn := false })
  else
    let out := (if st.putNewline then "\n" else "") ++ ppPrefixStr ++
      String.join (List.replicate st.depth ppIndentStr)
    if delta > 0 then
      (out, { depth := st.depth + 1, putNewline := true, indentedIn := true })
    else
      (out, { st with putNewline := true })

/-- Concatenation of a list of strings (`String.join`, stated through the
character lists for proof convenience). -/
def joinS (ss : List String) : String :=
  String.mk ((ss.map String.data).flatten)

/-- Go's `escapeText` on one character (`escapeNewline` selects attribute
versus character-data behaviour). -/
def escChar (escapeNewline : Bool) (c : Char) : List Char :=
  if c == '"' then "&#34;".data
  else if c == '\'' then "&#39;".data
  else if c == '&' then "&amp;".data
  else if c == '<' then "&lt;".data
  else if c == '>' then "&gt;".data
  else if c == '\t' then "&#x9;".data
  else if c == '\n' then (if escapeNewline then "&#xA;".data else "\n".data)
  else if c == '\r' then "&#xD;".data
  else [c]

def escText (escapeNewline : Bool) (s : String) : String :=
  String.mk ((s.data.map (escChar escapeNewline)).flatten)

def renderAttrs (attrs : List (String × String)) : String :=
  joinS (attrs.map (fun a => " " ++ a.1 ++ "=\"" ++ escText true a.2 ++ "\""))

/-- `Encoder.EncodeToken` for one token.  Start and end tags re-serialize
the local name and self-closing tags were already expanded by the decoder.
Names are re-emitted raw: Go's encoder additionally re-derives prefixes for
names carrying a namespace and injects `xmlns` declarations
(`createAttrPrefix`), so the serialization theorems below restrict their
families to colon-free names, on which Go emits exactly the raw name.
Encoder-side validity errors (an `xml` processing instruction after output
has started, a malformed directive) are not modelled; no theorem below
exercises those tokens through the encoder. -/
def renderTok (st : PState) : XTok → String × PState
  | XTok.startEl n attrs =>
    let (ind, st1) := writeIndent st 1
    (ind ++ "<" ++ localName n ++ renderAttrs attrs ++ ">", st1)
  | XTok.endEl n =>
    let (ind, st1) := writeIndent st (-1)
    (ind ++ "</" ++ localName n ++ ">", st1)
  | XTok.charData s => (escText false s, st)
  | XTok.commentTok s => ("<!--" ++ s ++ "-->", st)
  | XTok.procInst target inst =>
    ("<?" ++ target ++ (if inst.isEmpty then "" else " " ++ inst) ++ "?>", st)
  | XTok.directive s => ("<!" ++ s ++ ">", st)

def renderTokens (toks : List XTok) : String :=
  (toks.foldl (fun p t =>
    let (o, st') := renderTok p.2 t
    (p.1 ++ o, st')) (("" : String), ({ depth := 0, putNewline := false, indentedIn := false } : PState))).1

/-- The synthetic wrapper element (main.go:589). -/
def wrapRoot (content : String) : String :=
  "<root xmlns:xlink=\"http://www.w3.org/1999/xlink\">" ++ content ++ "</root>"

/-- `strings.TrimSpace`, implemented over the character list (Go trims
Unicode white space; the characters this program's outputs can start or end
with are covered by `Char.isWhitespace`). -/
def trimS (s : String) : String :=
  String.mk (((s.data.dropWhile Char.isWhitespace).reverse.dropWhile Char.isWhitespace).reverse)

/-- The skip test of main.go:607-612: any start or end token whose local
name is `root`. -/
def isRootTok : XTok → Bool
  | XTok.startEl n _ => localName n == "root"
  | XTok.endEl n => localName n == "root"
  | _ => false

/-- main.go:582-624: wrap, decode, drop every `root`-named start/end token,
re-encode with indentation, trim; on any decode error return the input
unchanged.  (In the model the encoder is total: the decoder only hands it
balanced token streams, so Go's encoder-side error returns are
unreachable.) -/
def prettyPrintXML (content : String) : String :=
  match decodeAll (wrapRoot content) with
  | .error _ => content
  | .ok toks => trimS (renderTokens (toks.filter (fun t => !isRootTok t)))

/-! ## Exact-value model of Go `float64` metadata

Go stores `width`, `height` and `aspectRatio` as `float64`.  Every value the
program meets is an exactly representable decimal, so the model uses exact
rationals; a record `⟨num, den⟩` denotes `num / den`, kept normalised by the
smart constructor `mkQ`.  The IEEE special values produced by Go's division
are represented with `den = 0`: `⟨1, 0⟩` is `+Inf`, `⟨-1, 0⟩` is `-Inf` and
`⟨0, 0⟩` is `NaN` — in particular `width / 0` is infinite here exactly as in
Go, not a division-by-zero exception.  (Mathlib's `Rat` is avoided because
its arithmetic does not reduce inside the kernel.) -/

structure Q where
  num : Int
  den : Nat
deriving Repr, DecidableEq

instance (n : Nat) : OfNat Q n := ⟨⟨n, 1⟩⟩

/-- Normalising constructor: divide by the gcd; a zero denominator yields
the IEEE-style special value of the numerator's sign. -/
def mkQ (n : Int) (d : Nat) : Q :=
  if d = 0 then ⟨n.sign, 0⟩
  else
    let g := Nat.gcd n.natAbs d
    ⟨(if n < 0 then -1 else 1) * (n.natAbs / g : Nat), d / g⟩

/-- `a / b` with Go `float64` zero-division semantics (`x/0 = ±Inf`,
`0/0 = NaN`).  The quotient itself is exact here, whereas Go rounds it to
the nearest `float64`: at extreme magnitudes the rounded quotient of two
positive finite operands underflows to `0` or overflows to `+Inf`, so
facts stated about this exact value do not transfer to those extremes. -/
def qdiv (a b : Q) : Q :=
  mkQ (a.num * (b.den : Int) * (if b.num < 0 then -1 else 1)) (a.den * b.num.natAbs)

/-- Strictly positive and finite: what "a positive aspect ratio" means for
a normalised value. -/
def qFinitePos (q : Q) : Prop := 0 < q.num ∧ q.den ≠ 0

instance (q : Q) : Decidable (qFinitePos q) := by
  unfold qFinitePos; infer_instance

/-! ## The diagram metadata extractor (`parseSVG`, main.go:507-580) -/

/-- `strconv.ParseFloat`, modelled over exact rationals: optional sign,
decimal digits with optional fraction, optional decimal exponent.  Two
divergences from Go are not modelled: Go additionally accepts
`inf`/`infinity`/`nan`, hex floats and digit-group underscores (rejected
here, so `parseSVG` falls back to the default where Go would store the
value), and Go rounds the decimal to the nearest `float64` — including
underflow to `0` and overflow to `±Inf` — where this model keeps it
exact. -/
def parseGoFloat (l : List Char) : Option Q :=
  let sgnAndRest : Int × List Char :=
    match l with
    | '+' :: r => (1, r)
    | '-' :: r => (-1, r)
    | r => (1, r)
  let sgn := sgnAndRest.1
  let l1 := sgnAndRest.2
  let ip := l1.takeWhile Char.isDigit
  let r2 := l1.dropWhile Char.isDigit
  let fpAndRest : List Char × List Char :=
    match r2 with
    | '.' :: r => (r.takeWhile Char.isDigit, r.dropWhile Char.isDigit)
    | r => ([], r)
  let fp := fpAndRest.1
  let r3 := fpAndRest.2
  if ip.length + fp.length == 0 then none
  else
    let digitsVal : List Char → Nat := fun ds => ds.foldl (fun a c => 10 * a + (c.toNat - 48)) 0
    let mant : Q := mkQ (sgn * digitsVal (ip ++ fp)) (10 ^ fp.length)
    match r3 with
    | [] => some mant
    | e :: r4 =>
      if e == 'e' || e == 'E' then
        let esgnAndRest : Bool × List Char :=
          match r4 with
          | '+' :: r => (false, r)
          | '-' :: r => (true, r)
          | r => (false, r)
        let ed := esgnAndRest.2.takeWhile Char.isDigit
        let r6 := esgnAndRest.2.dropWhile Char.isDigit
        if ed.isEmpty || !r6.isEmpty then none
        else if esgnAndRest.1 then some (mkQ mant.num (mant.den * 10 ^ digitsVal ed))
        else some (mkQ (mant.num * (10 ^ digitsVal ed : Nat)) mant.den)
      else none

/-- `strings.TrimSuffix(s, "px")`. -/
def trimSuffixPx (l : List Char) : List Char :=
  if l.reverse.take 2 == ['x', 'p'] then l.take (l.length - 2) else l

/-- Attempt `<svg[^>]*>` at this position, returning the matched text. -/
def svgTagMatchAt (l : List Char) : Option (List Char) :=
  if listStartsWith ("<svg".data) l then
    match takeToGt (List.drop 4 l) with
    | some (t, _) => some ("<svg".data ++ t)
    | none => none
  else none

/-- `svgRegex.FindString`: the leftmost match of `<svg[^>]*>`. -/
def findSvgTag : Nat → List Char → Option (List Char)
  | 0, _ => none
  | _ + 1, [] => none
  | fuel + 1, c :: cs =>
    match svgTagMatchAt (c :: cs) with
    | some m => some m
    | none => findSvgTag fuel cs

/-- Collect `[^"]*` up to (excluding) the first `"`; `none` if unterminated. -/
def takeToQuote : List Char → Option (List Char)
  | [] => none
  | c :: cs =>
    if c == '"' then some []
    else
      match takeToQuote cs with
      | none => none
      | some t => some (c :: t)

/-- `FindStringSubmatch` for `lit([^"]*)"` where `lit` is a literal such as
`width="`: the capture of the leftmost full match. -/
def captureAttr (lit : List Char) : Nat → List Char → Option (List Char)
  | 0, _ => none
  | _ + 1, [] => none
  | fuel + 1, c :: cs =>
    if listStartsWith lit (c :: cs) then
      match takeToQuote (List.drop lit.length (c :: cs)) with
      | some v => some v
      | none => captureAttr lit fuel cs
    else captureAttr lit fuel cs

/-- First index at which the literal occurs (`strings.Index`). -/
def idxOfLit (lit : List Char) : List Char → Option Nat
  | [] => if lit.isEmpty then some 0 else none
  | c :: cs =>
    if listStartsWith lit (c :: cs) then some 0
    else (idxOfLit lit cs).map (· + 1)

/-- Last index at which the literal occurs (`strings.LastIndex`). -/
def lastIdxOfLit (lit : List Char) (l : List Char) : Option Nat :=
  match idxOfLit lit.reverse l.reverse with
  | none => none
  | some i => some (l.length - lit.length - i)

/-- First index of the character (`strings.Index` with a 1-char literal). -/
def idxOfChar (ch : Char) : List Char → Option Nat
  | [] => none
  | c :: cs => if c == ch then some 0 else (idxOfChar ch cs).map (· + 1)

/-- One per abstraction level successfully parsed (main.go:33-39). `width`,
`height` and `aspectRatio` are Go `float64`s in the exact model `Q`;
`aspectRatio := width / height` is `+Inf` (`⟨1, 0⟩`) when `height = 0`,
exactly as in Go. -/
structure DiagramInfo where
  content : String
  viewBox : String
  width : Q
  height : Q
  aspectRatio : Q
deriving Repr, DecidableEq

/-- main.go:507-580. -/
def parseSVG (content : String) (level : String) : Except String DiagramInfo :=
  let l := content.data
  match findSvgTag (l.length + 1) l with
  | none => .error "no SVG element"
  | some m =>
    let viewBox : String :=
      match captureAttr ("viewBox=\"".data) (m.length + 1) m with
      | some v => String.mk v
      | none => "0 0 400 300"
    let width : Q :=
      match captureAttr ("width=\"".data) (m.length + 1) m with
      | some v =>
        match parseGoFloat (trimSuffixPx v) with
        | some q => q
        | none => 400
      | none => 400
    let height : Q :=
      match captureAttr ("height=\"".data) (m.length + 1) m with
      | some v =>
        match parseGoFloat (trimSuffixPx v) with
        | some q => q
        | none => 300
      | none => 300
    let ratio : Q := qdiv width height
    match idxOfLit ("<svg".data) l with
    | none => .error "no <svg> tag"
    | some svgStartPos =>
      match idxOfChar '>' (List.drop svgStartPos l) with
      | none => .error "malformed <svg> tag"
      | some svgTagEndPos =>
        let startIdx := svgStartPos + svgTagEndPos + 1
        match lastIdxOfLit ("</svg>".data) l with
        | none => .error "no </svg> tag"
        | some endIdx =>
          if endIdx ≤ startIdx then .error "no </svg> tag"
          else
            let rawContent := String.mk ((l.drop startIdx).take (endIdx - startIdx))
            let cleanedContent := cleanDiagramContent rawContent level
            .ok { content := prettyPrintXML cleanedContent, viewBox := viewBox,
                  width := width, height := height, aspectRatio := ratio }

/-! ## The level classifier and the loader (main.go:452-505) -/

/-- Lookup in the diagram collection (`s.diagrams[level]`); the Go map is
modelled by an association list with at most one entry per key. -/
def lookupD (d : List (String × DiagramInfo)) (k : String) : Option DiagramInfo :=
  match d.find? (fun p => p.1 == k) with
  | some p => some p.2
  | none => none

/-- Map assignment `s.diagrams[level] = info`.  The Go map is read only
through `lookupD`, so assignment is modelled extensionally by a shadowing
entry (a later write for the same level hides the earlier one). -/
def insertD (d : List (String × DiagramInfo)) (k : String) (v : DiagramInfo) :
    List (String × DiagramInfo) :=
  (k, v) :: d

/-- main.go:59-66. -/
def titleCase (s : String) : String :=
  match s.data with
  | [] => s
  | c :: cs => String.mk (c.toUpper :: cs)

/-- The embedded `navigation.js` asset (main.go:19-20).  The pipeline treats
it as opaque bytes appended into the script section; it is modelled by a
placeholder, on which no claim depends. -/
def navigationJS : String :=
  "/* embedded navigation.js asset: client-side level switching, scaling and highlighting; opaque data to the generation pipeline */"

/-- Round `n / d` (with `0 < d`) half to even, on magnitudes. -/
def roundHalfEvenND (n d : Nat) : Nat :=
  let e := n / d
  let r := n % d
  if 2 * r < d then e
  else if d < 2 * r then e + 1
  else if e % 2 = 0 then e else e + 1

/-- `fmt.Sprintf("%.<prec>f", x)` over the exact model: fixed-point with
`prec` fractional digits, rounding half to even.  (Go formats the nearest
binary double; the exact model agrees on every value a claim touches.)
Special values format as Go prints them. -/
def fmtFixed (q : Q) (prec : Nat) : String :=
  if q.den = 0 then
    if q.num > 0 then "+Inf" else if q.num < 0 then "-Inf" else "NaN"
  else
    let sign := if q.num < 0 then "-" else ""
    let n := roundHalfEvenND (q.num.natAbs * 10 ^ prec) q.den
    let digits := toString n
    if prec == 0 then sign ++ digits
    else
      let padded :=
        if digits.length ≤ prec then
          String.mk (List.replicate (prec + 1 - digits.length) '0') ++ digits
        else digits
      let ip := String.mk (padded.data.take (padded.length - prec))
      let fp := String.mk (padded.data.drop (padded.length - prec))
      sign ++ ip ++ "." ++ fp

/-- The fixed level order (main.go:653). -/
def levelsL : List String := ["context", "container", "component", "code"]

/-- The levels that have a record, in fixed order (the builder's loops skip
absent levels). -/
def presentLevels (d : List (String × DiagramInfo)) : List String :=
  levelsL.filter (fun l => (lookupD d l).isSome)

/-- The fixed document header: XML declaration, root element, title and
style block (main.go:661-708). -/
def headerPart1 : String :=
  "<?xml version=\"1.0\" encoding=\"UTF-8\"?>\n" ++
   "<svg xmlns=\"http://www.w3.org/2000/svg\"\n" ++
   "\x20    xmlns:xlink=\"http://www.w3.org/1999/xlink\"\n" ++
   "\x20    width=\"1920\"\n" ++
   "\x20    height=\"1080\"\n" ++
   "\x20    style=\"background: #f8f9fa; display: block;\">\n" ++
   "\n" ++
   "\x20 <title>Stacked C4 Architecture Diagrams</title>\n" ++
   "\n" ++
   "\x20 <!-- CSS Styles for Progressive Enhancement -->\n" ++
   "\x20 <style>\n" ++
   "\x20   /* Path highlighting - works without JavaScript */\n" ++
   "\x20   .link path,\n" ++
   "\x20   .link polygon \x7b\n" ++
   "\x20     pointer-events: stroke; /* Only capture events on the stroke itself */\n" ++
   "\x20   \x7d\n" ++
   "\n" ++
   "\x20   /* Highlight when JavaScript adds highlighted class (triggered by text hover) */\n" ++
   "\x20   .link.highlighted path,\n" ++
   "\x20   .link.highlighted polygon \x7b\n" ++
   "\x20     stroke: #e74c3c !important;\n" ++
   "\x20     stroke-width: 3 !important;\n" ++
   "\x20     filter: drop-shadow(0 0 3px rgba(231, 76, 60, 0.5));\n" ++
   "\x20   \x7d\n" ++
   "\n" ++
   "\x20   /* Make link text labels hoverable and disable tooltips */\n" ++
   "\x20   .link text \x7b\n" ++
   "\x20     cursor: pointer;\n" ++
   "\x20     user-select: none;\n" ++
   "\x20     pointer-events: all;\n" ++
   "\x20   \x7d\n" ++
   "\n" ++
   "\x20   /* Make text white when link is highlighted so it shows on red background */\n" ++
   "\x20   .link.highlighted text \x7b\n" ++
   "\x20     fill: white !important;\n" ++
   "\x20   \x7d\n" ++
   "\n" ++
   "\x20   /* Hide any title elements that might trigger tooltips */\n" ++
   "\x20   .link title \x7b\n" ++
   "\x20     display: none;\n" ++
   "\x20   \x7d\n" ++
   "\n" ++
   "\x20   /* Dimmed state (applied by JavaScript) */\n" ++
   "\x20   .link.dimmed path,\n" ++
   "\x20   .link.dimmed polygon \x7b\n" ++
   "\x20     opacity: 0.3;\n" ++
   "\x20   \x7d\n" ++
   "\x20 </style>"

/-- The navigation header bar with the title (main.go:710-719). -/
def headerPart2 (title : String) : String :=
  "\n\n  <!-- Navigation Header -->\n" ++
   "\x20 <rect x=\"0\" y=\"0\" width=\"100%\" height=\"80\" fill=\"#2c3e50\"/>\n" ++
   "\x20 <text x=\"26\" y=\"50\" font-family=\"Arial, sans-serif\" font-size=\"30\" font-weight=\"bold\" fill=\"white\">\n" ++
   "\x20   " ++ title ++ "\n" ++
   "\x20 </text>\n" ++
   "\n" ++
   "\x20 <!-- Navigation Buttons -->\n"

/-- One navigation button (main.go:731-740); `x = 26 + buttonIndex*117`. -/
def navButton (x : Nat) (level : String) : String :=
  "  <rect x=\"" ++ toString x ++ "\" y=\"91\" width=\"104\" height=\"33\" rx=\"4\"\n" ++
   "\x20       fill=\"#3498db\" stroke=\"#2980b9\" stroke-width=\"1\"\n" ++
   "\x20       style=\"cursor:pointer\" onclick=\"showLevel(\x27" ++ level ++ "\x27)\"\n" ++
   "\x20       id=\"nav-" ++ level ++ "\"/>\n" ++
   "\x20 <text x=\"" ++ toString (x + 13) ++ "\" y=\"113\" font-family=\"Arial, sans-serif\" font-size=\"14\"\n" ++
   "\x20       fill=\"white\" style=\"cursor:pointer; user-select: none\"\n" ++
   "\x20       onclick=\"showLevel(\x27" ++ level ++ "\x27)\">\n" ++
   "\x20   " ++ titleCase level ++ "\n" ++
   "\x20 </text>\n"

/-- Buttons are emitted for existing levels only; the running
`buttonIndex` counts the buttons actually emitted (main.go:721-741). -/
def navButtonsSection (d : List (String × DiagramInfo)) : String :=
  String.join ((presentLevels d).enum.map (fun p => navButton (26 + p.1 * 117) p.2))

/-- The two fixed toggle buttons (main.go:744-766). -/
def togglesSection : String :=
  "\n  <!-- Notes Toggle (right-aligned via JavaScript) -->\n" ++
   "\x20 <rect x=\"364\" y=\"91\" width=\"130\" height=\"33\" rx=\"4\"\n" ++
   "\x20       fill=\"#3498db\" stroke=\"#2980b9\" stroke-width=\"1\"\n" ++
   "\x20       style=\"cursor:pointer\" onclick=\"toggleNotes()\"\n" ++
   "\x20       id=\"notes-toggle\"/>\n" ++
   "\x20 <text x=\"377\" y=\"113\" font-family=\"Arial, sans-serif\" font-size=\"14\"\n" ++
   "\x20       fill=\"white\" style=\"cursor:pointer; user-select: none\"\n" ++
   "\x20       onclick=\"toggleNotes()\" id=\"notes-text\">\n" ++
   "\x20   Hide Notes\n" ++
   "\x20 </text>\n" ++
   "\n" ++
   "\x20 <!-- Fit to Width Toggle (right-aligned via JavaScript) -->\n" ++
   "\x20 <rect x=\"520\" y=\"91\" width=\"130\" height=\"33\" rx=\"4\"\n" ++
   "\x20       fill=\"#3498db\" stroke=\"#2980b9\" stroke-width=\"1\"\n" ++
   "\x20       style=\"cursor:pointer\" onclick=\"toggleFitMode()\"\n" ++
   "\x20       id=\"fit-toggle\"/>\n" ++
   "\x20 <text x=\"533\" y=\"113\" font-family=\"Arial, sans-serif\" font-size=\"14\"\n" ++
   "\x20       fill=\"white\" style=\"cursor:pointer; user-select: none\"\n" ++
   "\x20       onclick=\"toggleFitMode()\" id=\"fit-text\">\n" ++
   "\x20   Native Size\n" ++
   "\x20 </text>\n"

def layersHeader : String :=
  "\n\n  <!-- Diagram Layers (positioned below header at y=140) -->\n"

/-- main.go:821-844: one hidden layer per level; a level without a record
renders the placeholder "not found" panel. -/
def createDiagramLayer (d : List (String × DiagramInfo)) (level : String) : String :=
  match lookupD d level with
  | none =>
    "\n  <!-- " ++ level ++ " layer (not found) -->\n" ++
     "\x20 <g id=\"layer-" ++ level ++ "\" style=\"display:none\">\n" ++
     "\x20   <rect x=\"50\" y=\"120\" width=\"700\" height=\"450\" fill=\"#ecf0f1\" stroke=\"#bdc3c7\"/>\n" ++
     "\x20   <text x=\"400\" y=\"350\" text-anchor=\"middle\" font-family=\"Arial\" font-size=\"16\" fill=\"#7f8c8d\">\n" ++
     "\x20     " ++ titleCase level ++ " diagram not found\n" ++
     "\x20   </text>\n" ++
     "\x20 </g>"
  | some diagram =>
    "\n  <!-- " ++ level ++ " layer -->\n" ++
     "\x20 <g id=\"layer-" ++ level ++ "\" style=\"display:none\">\n" ++
     "\x20   <rect x=\"5\" y=\"145\" width=\"99999\" height=\"99999\" fill=\"white\" stroke=\"#ddd\" stroke-width=\"1\" rx=\"5\" id=\"container-" ++ level ++ "\"/>\n" ++
     "\x20   <g id=\"diagram-" ++ level ++ "\">\n" ++
     "\x20     <svg viewBox=\"" ++ diagram.viewBox ++ "\" x=\"10\" y=\"150\" width=\"99999\" height=\"99999\" preserveAspectRatio=\"xMidYMin meet\">\n" ++
     "\x20       " ++ diagram.content ++ "\n" ++
     "\x20     </svg>\n" ++
     "\x20   </g>\n" ++
     "\x20 </g>"

def layersSection (d : List (String × DiagramInfo)) : String :=
  String.join (levelsL.map (createDiagramLayer d))

def scriptOpen : String :=
  "\n  <!-- Navigation Script -->\n" ++
   "\x20 <script type=\"text/ecmascript\"><![CDATA[\n" ++
   "\x20   "

/-- One `diagramData` entry (main.go:791-792). -/
def dataEntry (level : String) (diagram : DiagramInfo) : String :=
  "  \x27" ++ level ++ "\x27: \x7b width: " ++ fmtFixed diagram.width 0 ++
    ", height: " ++ fmtFixed diagram.height 0 ++
    ", ratio: " ++ fmtFixed diagram.aspectRatio 2 ++ " \x7d"

/-- The generated `diagramData` table (main.go:784-796): entries for
existing levels in fixed order, comma-newline separated. -/
def diagramDataSection (d : List (String × DiagramInfo)) : String :=
  "const diagramData = \x7b\n" ++
    String.intercalate ",\n"
      (levelsL.filterMap (fun lvl => (lookupD d lvl).map (dataEntry lvl))) ++
    "\n\x7d;\n\n"

/-- The generated `availableLevels` list (main.go:799-810). -/
def availableLevelsSection (d : List (String × DiagramInfo)) : String :=
  "const availableLevels = [" ++
    String.intercalate ", " ((presentLevels d).map (fun l => "\x27" ++ l ++ "\x27")) ++
    "];\n\n"

def footerSection : String := "\n  ]]></script>\n\n</svg>"

/-- main.go:652-819: the deterministic assembly of the composite document.
Every loop over the Go map `s.diagrams` iterates the fixed `levels` slice
and looks levels up by key; map iteration order is never used. -/
def buildStackedSVG (d : List (String × DiagramInfo)) (title : String) : String :=
  headerPart1 ++ headerPart2 title ++ navButtonsSection d ++ togglesSection ++
    layersHeader ++ layersSection d ++ scriptOpen ++ diagramDataSection d ++
    availableLevelsSection d ++ navigationJS ++ footerSection

theorem listStartsWith_nil (l : List Char) : listStartsWith [] l = true := by
  cases l <;> rfl

theorem listStartsWith_iff (p : List Char) : ∀ l : List Char,
    listStartsWith p l = true ↔ ∃ t, l = p ++ t := by
  induction p with
  | nil =>
    intro l
    simp only [listStartsWith_nil, List.nil_append, true_iff]
    exact ⟨l, rfl⟩
  | cons c cs ih =>
    intro l
    cases l with
    | nil =>
      simp only [listStartsWith]
      constructor
      · intro h; cases h
      · rintro ⟨t, ht⟩; cases ht
    | cons d ds =>
      simp only [listStartsWith, Bool.and_eq_true, beq_iff_eq, ih]
      constructor
      · rintro ⟨rfl, t, rfl⟩; exact ⟨t, rfl⟩
      · rintro ⟨t, ht⟩
        injection ht with h1 h2
        exact ⟨h1.symm, t, h2⟩

theorem listStartsWith_self_append (p t : List Char) :
    listStartsWith p (p ++ t) = true :=
  (listStartsWith_iff p (p ++ t)).mpr ⟨t, rfl⟩

theorem listStartsWith_append_left (p : List Char) : ∀ (a b : List Char),
    p.length ≤ a.length → listStartsWith p (a ++ b) = listStartsWith p a := by
  induction p with
  | nil => intro a b _; simp [listStartsWith_nil]
  | cons c cs ih =>
    intro a b hlen
    cases a with
    | nil => simp at hlen
    | cons d ds =>
      simp only [List.cons_append, listStartsWith]
      rw [show (List.append ds b : List Char) = ds ++ b from rfl,
        ih ds b (by simpa using Nat.succ_le_succ_iff.mp hlen)]

theorem listStartsWith_short (p : List Char) : ∀ (a b : List Char),
    a.length < p.length → listStartsWith p (a ++ b) = true →
    p.take a.length = a := by
  induction p with
  | nil => intro a b h _; cases h
  | cons c cs ih =>
    intro a b hlen h
    cases a with
    | nil => rfl
    | cons d ds =>
      simp only [List.cons_append, listStartsWith, Bool.and_eq_true, beq_iff_eq] at h
      simp only [List.length_cons, List.take_succ_cons]
      exact congrArg₂ (· :: ·) h.1 (ih ds b (Nat.succ_lt_succ_iff.mp (by simpa using hlen)) h.2)

theorem occursIn_nil_iff (p : List Char) : occursIn p [] = listStartsWith p [] := rfl

theorem occursIn_cons (p : List Char) (c : Char) (cs : List Char) :
    occursIn p (c :: cs) = (listStartsWith p (c :: cs) || occursIn p cs) := rfl

theorem occursIn_of_startsWith_drop (p : List Char) : ∀ (a : List Char) (i : Nat),
    listStartsWith p (a.drop i) = true → occursIn p a = true := by
  intro a
  induction a with
  | nil => intro i h; simpa [List.drop_nil] using h
  | cons c cs ih =>
    intro i h
    cases i with
    | zero => rw [occursIn_cons]; simp [List.drop] at h; simp [h]
    | succ j =>
      rw [occursIn_cons]
      have := ih j (by simpa using h)
      simp [this]

/-- `pat` cannot begin at any position strictly inside `a`, whatever text
follows `a`: no occurrence lies inside `a` and no nonempty proper prefix of
`pat` is a suffix of `a`.  Decidable, so concrete witnesses can check it. -/
def noPatStartB (pat a : List Char) : Bool :=
  !occursIn pat a &&
    (List.range pat.length).all
      (fun k => k == 0 || !listStartsWith (pat.take k).reverse a.reverse)

theorem noStart_of_noPatStartB (pat a : List Char) (hp : noPatStartB pat a = true)
    (rest : List Char) (i : Nat) (hi : i < a.length) :
    listStartsWith pat (a.drop i ++ rest) = false := by
  rcases Bool.and_eq_true _ _ |>.mp hp with ⟨hocc, hall⟩
  by_contra hne
  have h : listStartsWith pat (a.drop i ++ rest) = true := by
    cases hh : listStartsWith pat (a.drop i ++ rest)
    · exact absurd hh hne
    · rfl
  rcases le_or_lt pat.length (a.drop i).length with hle | hlt
  · rw [listStartsWith_append_left pat _ rest hle] at h
    have := occursIn_of_startsWith_drop pat a i h
    simp [this] at hocc
  · have htake : pat.take (a.drop i).length = a.drop i :=
      listStartsWith_short pat _ rest hlt h
    have hk1 : 0 < (a.drop i).length := by
      simp only [List.length_drop]
      omega
    have hkmem : (a.drop i).length ∈ List.range pat.length :=
      List.mem_range.mpr hlt
    have hkcond := List.all_eq_true.mp hall _ hkmem
    have hkne : ((a.drop i).length == 0) = false := by
      simp only [beq_eq_false_iff_ne, ne_eq]
      omega
    rw [hkne, Bool.false_or, Bool.not_eq_true'] at hkcond
    rw [htake] at hkcond
    have hsuf : listStartsWith (a.drop i).reverse a.reverse = true := by
      have : a = a.take i ++ a.drop i := (List.take_append_drop i a).symm
      rw [listStartsWith_iff]
      exact ⟨(a.take i).reverse, by rw [← List.reverse_append, ← this]⟩
    rw [hsuf] at hkcond
    cases hkcond

theorem occursIn_append_false (pat : List Char) : ∀ (a b : List Char),
    (∀ i, i < a.length → listStartsWith pat (a.drop i ++ b) = false) →
    occursIn pat b = false → occursIn pat (a ++ b) = false := by
  intro a
  induction a with
  | nil => intro b _ hb; simpa using hb
  | cons c cs ih =>
    intro b h hb
    rw [List.cons_append, occursIn_cons]
    have h0 : listStartsWith pat (c :: (cs ++ b)) = false := by
      simpa using h 0 (by simp)
    have h1 : occursIn pat (cs ++ b) = false :=
      ih b (fun i hi => by simpa using h (i + 1) (by simpa using Nat.succ_lt_succ hi)) hb
    simp [h0, h1]

theorem countOcc_eq_zero_iff (pat : List Char) (hp : pat ≠ []) : ∀ l : List Char,
    countOcc pat l = 0 ↔ occursIn pat l = false := by
  intro l
  induction l with
  | nil =>
    simp only [countOcc, occursIn_nil_iff]
    constructor
    · intro _
      cases pat with
      | nil => exact absurd rfl hp
      | cons c cs => rfl
    · intro _; trivial
  | cons c cs ih =>
    simp only [countOcc, occursIn_cons, Nat.add_eq_zero, Bool.or_eq_false_iff]
    constructor
    · rintro ⟨h1, h2⟩
      refine ⟨?_, ih.mp h2⟩
      by_contra hh
      have : listStartsWith pat (c :: cs) = true := by
        cases hx : listStartsWith pat (c :: cs)
        · exact absurd hx hh
        · rfl
      simp [this] at h1
    · rintro ⟨h1, h2⟩
      exact ⟨by simp [h1], ih.mpr h2⟩

theorem beq_false_of_ne {c d : Char} (h : c ≠ d) : (c == d) = false := by
  simp only [beq_eq_false_iff_ne, ne_eq]
  exact h

/-- If `pat` does not occur in `a` and has no nontrivial border (no proper
nonempty prefix that is also a suffix of `pat`), then no match of `pat` can
start strictly inside `a` when the text continues with `pat` itself: a
straddling match would exhibit such a border. -/
theorem noStart_self_append (pat a post : List Char) (hocc : occursIn pat a = false)
    (hnb : ∀ k, k < pat.length → 0 < k → pat.drop k ≠ pat.take (pat.length - k))
    (i : Nat) (hi : i < a.length) :
    listStartsWith pat (a.drop i ++ (pat ++ post)) = false := by
  by_contra hne
  have h : listStartsWith pat (a.drop i ++ (pat ++ post)) = true := by
    cases hh : listStartsWith pat (a.drop i ++ (pat ++ post))
    · exact absurd hh hne
    · rfl
  rcases le_or_lt pat.length (a.drop i).length with hle | hlt
  · rw [listStartsWith_append_left pat _ _ hle] at h
    have hin := occursIn_of_startsWith_drop pat a i h
    rw [hin] at hocc
    cases hocc
  · obtain ⟨t, ht⟩ := (listStartsWith_iff pat _).mp h
    have htake := listStartsWith_short pat _ (pat ++ post) hlt h
    have hm1 : 0 < (a.drop i).length := by
      have hld : (a.drop i).length = a.length - i := List.length_drop i a
      omega
    have hsplit : pat = a.drop i ++ pat.drop (a.drop i).length := by
      conv_lhs => rw [← List.take_append_drop (a.drop i).length pat]
      rw [htake]
    have ht2 : a.drop i ++ (pat ++ post) =
        a.drop i ++ (pat.drop (a.drop i).length ++ t) := by
      nth_rewrite 2 [hsplit] at ht
      rw [List.append_assoc] at ht
      exact ht
    have hcb : pat ++ post = pat.drop (a.drop i).length ++ t :=
      List.append_cancel_left ht2
    have htk := congrArg (List.take (pat.length - (a.drop i).length)) hcb
    rw [List.take_append_eq_append_take,
      show pat.length - (a.drop i).length - pat.length = 0 from by omega,
      List.take_zero, List.append_nil,
      List.take_left' (by rw [List.length_drop])] at htk
    exact hnb (a.drop i).length hlt hm1 htk.symm

theorem matchScriptAt_none (l : List Char)
    (h : listStartsWith ("<script".data) l = false) : matchScriptAt l = none := by
  unfold matchScriptAt
  rw [h]
  rfl

theorem removeScriptsAux_emit : ∀ (pre : List Char) (k : Nat) (rest : List Char),
    (∀ i, i < pre.length → listStartsWith ("<script".data) (pre.drop i ++ rest) = false) →
    removeScriptsAux (pre.length + k) (pre ++ rest) = pre ++ removeScriptsAux k rest := by
  intro pre
  induction pre with
  | nil => intro k rest _; simp
  | cons c cs ih =>
    intro k rest h
    have hlen : (c :: cs).length + k = (cs.length + k) + 1 := by
      simp only [List.length_cons]; omega
    rw [hlen]
    show removeScriptsAux ((cs.length + k) + 1) (c :: (cs ++ rest)) = _
    rw [removeScriptsAux, matchScriptAt_none _ (by simpa using h 0 (by simp))]
    rw [ih k rest (fun i hi => by simpa using h (i + 1) (by simpa using Nat.succ_lt_succ hi))]
    rfl

theorem dropToGt_through : ∀ (attrs : List Char) (rest : List Char),
    (∀ c ∈ attrs, c ≠ '>') → dropToGt (attrs ++ '>' :: rest) = some rest := by
  intro attrs
  induction attrs with
  | nil => intro rest _; simp [dropToGt]
  | cons c cs ih =>
    intro rest h
    have hc : (c == '>') = false := by
      simp only [beq_eq_false_iff_ne, ne_eq]
      exact h c (by simp)
    rw [List.cons_append, dropToGt, hc]
    simp only [Bool.false_eq_true, if_false]
    exact ih rest (fun a ha => h a (by simp [ha]))

theorem dropToCloseScript_through : ∀ (body : List Char) (post : List Char),
    (∀ c ∈ body, c ≠ '\n') →
    (∀ i, i < body.length →
      listStartsWith ("</script>".data) (body.drop i ++ ("</script>".data ++ post)) = false) →
    dropToCloseScript (body ++ ("</script>".data ++ post)) = some post := by
  intro body
  induction body with
  | nil =>
    intro post _ _
    show dropToCloseScript ('<' :: ("/script>".data ++ post)) = some post
    rw [dropToCloseScript]
    have hs : listStartsWith ("</script>".data) ('<' :: ("/script>".data ++ post)) = true := by
      show listStartsWith ("</script>".data) (("</script>".data) ++ post) = true
      exact listStartsWith_self_append _ _
    rw [hs]
    simp only [if_true]
    show some (List.drop ("/script>".data).length (("/script>".data) ++ post)) = some post
    rw [List.drop_left]
  | cons b body' ih =>
    intro post h hns
    rw [List.cons_append, dropToCloseScript]
    have hs : listStartsWith ("</script>".data)
        (b :: (body' ++ ("</script>".data ++ post))) = false := by
      simpa using hns 0 (by simp)
    rw [hs]
    have hn : (b == '\n') = false := beq_false_of_ne (h b (by simp))
    simp only [Bool.false_eq_true, if_false, hn]
    exact ih post (fun a ha => h a (by simp [ha]))
      (fun i hi => by simpa using hns (i + 1) (by simpa using Nat.succ_lt_succ hi))

/-- A full match of the script regex on a block whose body lies on one line
and does not itself contain the closing script tag (the body may contain
any other characters, including angle brackets). -/
theorem matchScriptAt_block (attrs body post : List Char)
    (hattrs : ∀ c ∈ attrs, c ≠ '>') (hbody : ∀ c ∈ body, c ≠ '\n')
    (hocc : occursIn ("</script>".data) body = false) :
    matchScriptAt ("<script".data ++ (attrs ++ ('>' ::
      (body ++ ("</script>".data ++ post))))) = some post := by
  unfold matchScriptAt
  rw [listStartsWith_self_append]
  simp only [if_true]
  rw [show (7 : Nat) = ("<script".data).length from rfl, List.drop_left]
  rw [dropToGt_through attrs _ hattrs]
  exact dropToCloseScript_through body post hbody
    (fun i hi => noStart_self_append ("</script>".data) body post hocc (by decide) i hi)

theorem removeScriptsAux_id : ∀ (fuel : Nat) (l : List Char),
    occursIn ("<script".data) l = false → removeScriptsAux fuel l = l := by
  intro fuel
  induction fuel with
  | zero => intro l _; rfl
  | succ n ih =>
    intro l h
    cases l with
    | nil => rfl
    | cons c cs =>
      rw [occursIn_cons, Bool.or_eq_false_iff] at h
      rw [removeScriptsAux, matchScriptAt_none _ h.1, ih cs h.2]

theorem matchGAAt_none (l : List Char)
    (h : listStartsWith ("<g".data) l = false) : matchGAAt l = none := by
  unfold matchGAAt
  rw [h]
  rfl

theorem rewriteGAAux_id : ∀ (fuel : Nat) (l : List Char),
    occursIn ("<g".data) l = false → rewriteGAAux fuel l = l := by
  intro fuel
  induction fuel with
  | zero => intro l _; rfl
  | succ n ih =>
    intro l h
    cases l with
    | nil => rfl
    | cons c cs =>
      rw [occursIn_cons, Bool.or_eq_false_iff] at h
      rw [rewriteGAAux, matchGAAt_none _ h.1, ih cs h.2]

theorem matchATagAt_none (l : List Char)
    (h : listStartsWith ("<a".data) l = false) : matchATagAt l = none := by
  unfold matchATagAt
  rw [h]
  rfl

theorem removeATagsAux_id : ∀ (fuel : Nat) (l : List Char),
    occursIn ("<a".data) l = false → removeATagsAux fuel l = l := by
  intro fuel
  induction fuel with
  | zero => intro l _; rfl
  | succ n ih =>
    intro l h
    cases l with
    | nil => rfl
    | cons c cs =>
      rw [occursIn_cons, Bool.or_eq_false_iff] at h
      rw [removeATagsAux, matchATagAt_none _ h.1, ih cs h.2]

theorem removeCloseAAux_id : ∀ (fuel : Nat) (l : List Char),
    occursIn ("</a>".data) l = false → removeCloseAAux fuel l = l := by
  intro fuel
  induction fuel with
  | zero => intro l _; rfl
  | succ n ih =>
    intro l h
    cases l with
    | nil => rfl
    | cons c cs =>
      rw [occursIn_cons, Bool.or_eq_false_iff] at h
      rw [removeCloseAAux, h.1, ih cs h.2]
      simp

/-! ## Claim C1 -/

/-- The record stored for a document whose root carries `height="0"`. -/
def c1rec : DiagramInfo :=
  { content := "<rect></rect>", viewBox := "0 0 400 300",
    width := 400, height := ⟨0, 1⟩, aspectRatio := ⟨1, 0⟩ }

/-- The record stored for a document whose root carries `height="-300"`. -/
def c1recNeg : DiagramInfo :=
  { content := "<rect></rect>", viewBox := "0 0 400 300",
    width := 400, height := ⟨-300, 1⟩, aspectRatio := ⟨-4, 3⟩ }

/-- C1 (counterexample): a height attribute that parses to `0` (or to a
negative number) is **not** treated as a parse failure: `parseSVG` succeeds,
stores the parsed height, and the stored aspect ratio is `+Inf`
(respectively negative) — never the default-300 fallback the claim
describes. -/
theorem c1_counterexample :
    parseSVG "<svg width=\"400\" height=\"0\"><rect/></svg>" "context" = .ok c1rec ∧
    ¬ qFinitePos c1rec.aspectRatio ∧ c1rec.height = ⟨0, 1⟩ ∧
    parseSVG "<svg width=\"400\" height=\"-300\"><rect/></svg>" "context" = .ok c1recNeg ∧
    ¬ qFinitePos c1recNeg.aspectRatio ∧ c1recNeg.height = ⟨-300, 1⟩ := by
  refine ⟨by decide, by decide, by decide, by decide, by decide, by decide⟩

/-- C1 (amended): every record produced by `parseSVG` stores as its aspect
ratio the quotient of the stored width and height, defaults included.  The
model records that quotient exactly; Go computes it in `float64`, where the
rounded quotient of two positive finite values can still underflow to `0`
or overflow to `+Inf` at extreme magnitudes.  A zero or negative parsed
height is stored as-is — it is not a parse failure — and then the stored
ratio is infinite, zero or negative. -/
theorem c1_aspect_ratio (content level : String) (info : DiagramInfo)
    (h : parseSVG content level = .ok info) :
    info.aspectRatio = qdiv info.width info.height := by
  unfold parseSVG at h
  dsimp only [] at h
  repeat' split at h
  any_goals exact Except.noConfusion h
  all_goals (cases h; rfl)

/-- C1 (witness): the amended theorem applied to a well-formed 400×300
document. -/
theorem c1_witness :
    parseSVG "<svg width=\"400\" height=\"300\"><rect/></svg>" "context" = .ok
      { content := "<rect></rect>", viewBox := "0 0 400 300",
        width := 400, height := 300, aspectRatio := ⟨4, 3⟩ } ∧
    (⟨4, 3⟩ : Q) = qdiv 400 300 := by
  have h : parseSVG "<svg width=\"400\" height=\"300\"><rect/></svg>" "context" = .ok
      { content := "<rect></rect>", viewBox := "0 0 400 300",
        width := 400, height := 300, aspectRatio := ⟨4, 3⟩ } := by decide
  exact ⟨h, c1_aspect_ratio _ _ _ h⟩

/-! ## Claim C2 -/

/-- C2 (counterexample): a `<script>` block whose content spans two lines is
left in place by the cleaner (RE2's `.` does not match a newline), so the
output still contains `<script`. -/
theorem c2_counterexample :
    cleanDiagramContent "<script>a\nb</script><rect/>" "context" =
      "<script>a\nb</script><rect/>" ∧
    countOccS "<script" (cleanDiagramContent "<script>a\nb</script><rect/>" "context") = 1 := by
  refine ⟨by decide, by decide⟩

/-- C2 (amended): the cleaner removes every `<script ...>...</script>`
block whose content lies on a single line (no newline between the opening
and closing tags, the content may otherwise contain any characters that do
not form a closing script tag of their own); for a fragment consisting of
such a block in a context that itself contains no `<script`, no `<g` and
no `<a>` markup, the output contains zero occurrences of `<script`.
Blocks with multi-line content are not removed. -/
theorem c2_script_removal (pre attrs body post lvl : String)
    (hpre : noPatStartB ("<script".data) pre.data = true)
    (hpost : occursIn ("<script".data) post.data = false)
    (hattrs : ∀ c ∈ attrs.data, c ≠ '>')
    (hbody : ∀ c ∈ body.data, c ≠ '\n')
    (hbodyc : occursIn ("</script>".data) body.data = false)
    (hg : occursIn ("<g".data) (pre.data ++ post.data) = false)
    (ha : occursIn ("<a".data) (pre.data ++ post.data) = false)
    (hca : occursIn ("</a>".data) (pre.data ++ post.data) = false) :
    countOccS "<script"
      (cleanDiagramContent (pre ++ "<script" ++ attrs ++ ">" ++ body ++ "</script>" ++ post) lvl)
      = 0 := by
  have hdata : (pre ++ "<script" ++ attrs ++ ">" ++ body ++ "</script>" ++ post).data
      = pre.data ++ ("<script".data ++ (attrs.data ++ ('>' ::
          (body.data ++ ("</script>".data ++ post.data))))) := by
    simp only [String.data_append, List.append_assoc]
    rfl
  have hstep : ∀ fuel : Nat,
      removeScriptsAux (fuel + 1) ("<script".data ++ (attrs.data ++ ('>' ::
        (body.data ++ ("</script>".data ++ post.data)))))
        = removeScriptsAux fuel post.data := by
    intro fuel
    have hblock : matchScriptAt ('<' :: ("script".data ++ (attrs.data ++ ('>' ::
        (body.data ++ ("</script>".data ++ post.data)))))) = some post.data :=
      matchScriptAt_block attrs.data body.data post.data hattrs hbody hbodyc
    show removeScriptsAux (fuel + 1)
      ('<' :: ("script".data ++ (attrs.data ++ ('>' ::
        (body.data ++ ("</script>".data ++ post.data)))))) = _
    rw [removeScriptsAux, hblock]
  have hrs : removeScripts
      (pre ++ "<script" ++ attrs ++ ">" ++ body ++ "</script>" ++ post).data
      = pre.data ++ post.data := by
    rw [hdata]
    unfold removeScripts
    have hlen : (pre.data ++ ("<script".data ++ (attrs.data ++ ('>' ::
        (body.data ++ ("</script>".data ++ post.data)))))).length + 1
        = pre.data.length + ((("<script".data ++ (attrs.data ++ ('>' ::
        (body.data ++ ("</script>".data ++ post.data)))))).length + 1) := by
      rw [List.length_append]
      omega
    rw [hlen, removeScriptsAux_emit pre.data _ _
      (fun i hi => noStart_of_noPatStartB _ _ hpre _ i hi)]
    rw [hstep, removeScriptsAux_id _ _ hpost]
  show countOcc ("<script".data) (removeCloseA (removeATags (rewriteGA (removeScripts _)))) = 0
  rw [hrs]
  unfold rewriteGA
  rw [rewriteGAAux_id _ _ hg]
  unfold removeATags
  rw [removeATagsAux_id _ _ ha]
  unfold removeCloseA
  rw [removeCloseAAux_id _ _ hca]
  rw [countOcc_eq_zero_iff _ (by decide)]
  exact occursIn_append_false _ _ _
    (fun i hi => noStart_of_noPatStartB _ _ hpre post.data i hi) hpost

/-- C2 (witness): the amended theorem applied to a concrete fragment with a
single-line script block — whose body contains an angle bracket, as in
`if(a<b)` — between two ordinary elements. -/
theorem c2_witness :
    countOccS "<script"
      (cleanDiagramContent
        ("<rect x=\"1\"/>" ++ "<script" ++ " type=\"text/ecmascript\"" ++ ">" ++
          "if(a<b)alert(1)" ++ "</script>" ++ "<text>hi</text>") "context") = 0 :=
  c2_script_removal "<rect x=\"1\"/>" " type=\"text/ecmascript\"" "if(a<b)alert(1)"
    "<text>hi</text>" "context" (by decide) (by decide) (by decide) (by decide)
    (by decide) (by decide) (by decide) (by decide)

/-! ## Claim C3 -/

/-- C6: metadata extraction over the first root opening tag: a `640px`
width yields 640 (unit suffix stripped); an absent or unparseable width
yields 400; an absent height yields 300 independently of width; an absent
viewBox yields `"0 0 400 300"`; none of these fallbacks is an error. -/
theorem c6_metadata :
    (parseSVG "<svg width=\"640px\" height=\"480\"><rect/></svg>" "context").toOption =
      some { content := "<rect></rect>", viewBox := "0 0 400 300",
             width := 640, height := 480, aspectRatio := ⟨4, 3⟩ } ∧
    (parseSVG "<svg height=\"480\" viewBox=\"0 0 10 10\"><rect/></svg>" "context").toOption =
      some { content := "<rect></rect>", viewBox := "0 0 10 10",
             width := 400, height := 480, aspectRatio := ⟨5, 6⟩ } ∧
    (parseSVG "<svg width=\"abc\" height=\"480\"><rect/></svg>" "context").toOption =
      some { content := "<rect></rect>", viewBox := "0 0 400 300",
             width := 400, height := 480, aspectRatio := ⟨5, 6⟩ } ∧
    (parseSVG "<svg width=\"640px\"><rect/></svg>" "context").toOption =
      some { content := "<rect></rect>", viewBox := "0 0 400 300",
             width := 640, height := 300, aspectRatio := ⟨32, 15⟩ } ∧
    (parseSVG "<svg><rect/></svg>" "context").toOption =
      some { content := "<rect></rect>", viewBox := "0 0 400 300",
             width := 400, height := 300, aspectRatio := ⟨4, 3⟩ } := by
  refine ⟨by decide, by decide, by decide, by decide, by decide⟩

/-! ## Claim C8 (counterexample part) -/

theorem createDiagramLayer_congr (d1 d2 : List (String × DiagramInfo)) (l : String)
    (h : lookupD d1 l = lookupD d2 l) :
    createDiagramLayer d1 l = createDiagramLayer d2 l := by
  unfold createDiagramLayer
  rw [h]

theorem filterMap_congr_mem {α β : Type} (f g : α → Option β) : ∀ (l : List α),
    (∀ a ∈ l, f a = g a) → l.filterMap f = l.filterMap g := by
  intro l
  induction l with
  | nil => intro _; rfl
  | cons a l ih =>
    intro h
    rw [List.filterMap_cons, List.filterMap_cons, h a (by simp),
      ih (fun b hb => h b (by simp [hb]))]

/-- C9: the composite builder is deterministic and reads the record
collection only through per-level lookups: any two collections that agree
on the lookups of the four levels — in particular any two map
representations of the same contents, whatever their iteration order —
produce byte-for-byte identical documents. -/
theorem c9_deterministic (d1 d2 : List (String × DiagramInfo)) (title : String)
    (h : ∀ l ∈ levelsL, lookupD d1 l = lookupD d2 l) :
    buildStackedSVG d1 title = buildStackedSVG d2 title := by
  have hp : presentLevels d1 = presentLevels d2 := by
    unfold presentLevels
    exact List.filter_congr (fun l hl => by rw [h l hl])
  have hlay : levelsL.map (createDiagramLayer d1) = levelsL.map (createDiagramLayer d2) :=
    List.map_congr_left (fun l hl => createDiagramLayer_congr d1 d2 l (h l hl))
  have hdm : levelsL.filterMap (fun lvl => (lookupD d1 lvl).map (dataEntry lvl)) =
      levelsL.filterMap (fun lvl => (lookupD d2 lvl).map (dataEntry lvl)) :=
    filterMap_congr_mem _ _ _ (fun l hl => by rw [h l hl])
  unfold buildStackedSVG navButtonsSection layersSection diagramDataSection
    availableLevelsSection
  rw [hp, hlay, hdm]

/-- A 400×300 context record. -/
def c9rec1 : DiagramInfo :=
  { content := "<rect></rect>", viewBox := "0 0 400 300",
    width := 400, height := 300, aspectRatio := ⟨4, 3⟩ }

/-- A 500×400 container record. -/
def c9rec2 : DiagramInfo :=
  { content := "<text></text>", viewBox := "0 0 500 400",
    width := 500, height := 400, aspectRatio := ⟨5, 4⟩ }

/-- C9 (witness): two differently-ordered representations of the same
two-level collection build identical documents. -/
theorem c9_witness :
    (∀ l ∈ levelsL, lookupD [("context", c9rec1), ("container", c9rec2)] l =
      lookupD [("container", c9rec2), ("context", c9rec1)] l) ∧
    buildStackedSVG [("context", c9rec1), ("container", c9rec2)] "T" =
      buildStackedSVG [("container", c9rec2), ("context", c9rec1)] "T" :=
  ⟨by decide, c9_deterministic _ _ "T" (by decide)⟩

/-! ## Claim C10 -/

/-- C10: the wrapper-skip of the pretty-printer applies to *every* start or
end token whose local name is `root`, at any nesting depth — no token
surviving the filter is `root`-named — so a fragment that itself contains a
`<root>` element loses that element's tags while keeping its children (shown
on a concrete nested input). -/
theorem c10_root_skip :
    (∀ (c : String) (toks : List XTok), decodeAll (wrapRoot c) = .ok toks →
      ∀ t ∈ toks.filter (fun t => !isRootTok t), isRootTok t = false) ∧
    prettyPrintXML "<g><root a=\"1\"><rect/></root></g>" =
      "<g>\n        <rect></rect>\n      </g>" ∧
    countOccS "<root" (prettyPrintXML "<g><root a=\"1\"><rect/></root></g>") = 0 ∧
    countOccS "<rect" (prettyPrintXML "<g><root a=\"1\"><rect/></root></g>") = 1 := by
  refine ⟨?_, by decide, by decide, by decide⟩
  intro c toks _ t ht
  have := List.of_mem_filter ht
  simpa using this

/-- C10 (witness): the universal part applied to the nested-root input. -/
theorem c10_witness : isRootTok (XTok.startEl "g" []) = false :=
  c10_root_skip.1 "<g><root a=\"1\"><rect/></root></g>"
    [XTok.startEl "root" [("xmlns:xlink", "http://www.w3.org/1999/xlink")],
     XTok.startEl "g" [], XTok.startEl "root" [("a", "1")],
     XTok.startEl "rect" [], XTok.endEl "rect", XTok.endEl "root",
     XTok.endEl "g", XTok.endEl "root"] (by decide)
    (XTok.startEl "g" []) (by decide)

/-! ## Claim C4 -/

theorem lookupD_insertD_self (d : List (String × DiagramInfo)) (k : String) (v : DiagramInfo) :
    lookupD (insertD d k v) k = some v := by
  simp [lookupD, insertD, List.find?]

theorem lookupD_insertD_ne (d : List (String × DiagramInfo)) (k : String) (v : DiagramInfo)
    (l : String) (h : l ≠ k) : lookupD (insertD d k v) l = lookupD d l := by
  have hk : (k == l) = false := by
    simp only [beq_eq_false_iff_ne, ne_eq]
    exact fun hh => h hh.symm
  simp [lookupD, insertD, List.find?, hk]

/-- A 500×400 container record used by the C4 statements. -/
def c4rec : DiagramInfo :=
  { content := "<rect></rect>", viewBox := "0 0 500 400",
    width := 500, height := 400, aspectRatio := ⟨5, 4⟩ }

/-- A 400×300 context record used by the C4 statements. -/
def c4rec0 : DiagramInfo :=
  { content := "<rect></rect>", viewBox := "0 0 400 300",
    width := 400, height := 300, aspectRatio := ⟨4, 3⟩ }

set_option maxRecDepth 4000 in
/-- C4 (counterexample): the navigation buttons of the *present* levels are
not unchanged when a level is absent — the button x position is
`26 + 117·(rank among present levels)`, so with `context` absent the
`container` button sits at `x="26"`, while with `context` present it sits at
`x="143"`. -/
theorem c4_counterexample :
    lookupD [("container", c4rec)] "context" = none ∧
    navButtonsSection [("container", c4rec)] = navButton 26 "container" ∧
    navButtonsSection [("context", c4rec0), ("container", c4rec)] =
      navButton 26 "context" ++ navButton 143 "container" ∧
    navButton 26 "container" ≠ navButton 143 "container" := by
  refine ⟨by decide, by decide, by decide, by decide⟩

/-- C4 (amended): a level `L` absent from the collection renders the
"not found" placeholder panel and gets no navigation button; relative to the
collection with `L` added, the other levels' layers are unchanged and their
buttons keep their order and labels, but each button's x position is
recomputed as `26 + 117·(rank among the levels actually present)` — buttons
after `L` shift left rather than keeping their x attribute. -/
theorem c4_absent_level (d : List (String × DiagramInfo)) (L : String) (rec : DiagramInfo)
    (hL : L ∈ levelsL) (habs : lookupD d L = none) :
    createDiagramLayer d L =
      "\n  <!-- " ++ L ++ " layer (not found) -->\n" ++
       "\x20 <g id=\"layer-" ++ L ++ "\" style=\"display:none\">\n" ++
       "\x20   <rect x=\"50\" y=\"120\" width=\"700\" height=\"450\" fill=\"#ecf0f1\" stroke=\"#bdc3c7\"/>\n" ++
       "\x20   <text x=\"400\" y=\"350\" text-anchor=\"middle\" font-family=\"Arial\" font-size=\"16\" fill=\"#7f8c8d\">\n" ++
       "\x20     " ++ titleCase L ++ " diagram not found\n" ++
       "\x20   </text>\n" ++
       "\x20 </g>" ∧
    L ∉ presentLevels d ∧
    L ∈ presentLevels (insertD d L rec) ∧
    presentLevels d = (presentLevels (insertD d L rec)).filter (fun l => !(l == L)) ∧
    (∀ l ∈ levelsL, l ≠ L → createDiagramLayer (insertD d L rec) l = createDiagramLayer d l) ∧
    navButtonsSection d = String.join
      ((((presentLevels (insertD d L rec)).filter (fun l => !(l == L))).enum).map
        (fun p => navButton (26 + p.1 * 117) p.2)) := by
  have hfilter : presentLevels d = (presentLevels (insertD d L rec)).filter (fun l => !(l == L)) := by
    unfold presentLevels
    rw [List.filter_filter]
    apply List.filter_congr
    intro l hl
    by_cases he : l = L
    · subst he
      simp [habs]
    · rw [lookupD_insertD_ne d L rec l he]
      have : (l == L) = false := by
        simp only [beq_eq_false_iff_ne, ne_eq]; exact he
      simp [this]
  refine ⟨?_, ?_, ?_, hfilter, ?_, ?_⟩
  · unfold createDiagramLayer
    rw [habs]
  · intro hmem
    have := (List.mem_filter.mp hmem).2
    simp [habs] at this
  · exact List.mem_filter.mpr ⟨hL, by simp [lookupD_insertD_self]⟩
  · intro l _ hne
    exact createDiagramLayer_congr _ _ l (lookupD_insertD_ne d L rec l hne)
  · unfold navButtonsSection
    rw [hfilter]

/-- C4 (witness): the amended theorem at the concrete one-level collection
missing `context`. -/
theorem c4_witness :
    "context" ∉ presentLevels [("container", c4rec)] ∧
    "context" ∈ presentLevels (insertD [("container", c4rec)] "context" c4rec0) ∧
    presentLevels [("container", c4rec)] =
      (presentLevels (insertD [("container", c4rec)] "context" c4rec0)).filter
        (fun l => !(l == "context")) :=
  have h := c4_absent_level [("container", c4rec)] "context" c4rec0 (by decide) (by decide)
  ⟨h.2.1, h.2.2.1, h.2.2.2.1⟩

/-! ## Symbolic runs of the tokenizer

The lemmas below step the XML decoder over text assembled from symbolic
pieces (attribute lists, names, character data), as needed by the
well-formedness and idempotence claims. -/

/-- Serialized form of one attribute, as the decoder and encoder exchange
it: a leading space, the name, `="`, the value, `"`. -/
def attrOne (a : String × String) : List Char :=
  ' ' :: (a.1.data ++ ('=' :: '"' :: (a.2.data ++ ['"'])))

/-- Serialized form of an attribute list. -/
def attrsText (al : List (String × String)) : List Char :=
  (al.map attrOne).flatten

inductive XFrag where
  | el (name : String) (al : List (String × String)) (children : List XFrag) : XFrag
  | txt (s : String) : XFrag

mutual
def xserialize : XFrag → List Char
  | .txt s => s.data
  | .el n al cs =>
    '<' :: (n.data ++ (attrsText al ++ '>' ::
      (xserializeL cs ++ ('<' :: '/' :: (n.data ++ ['>'])))))
def xserializeL : List XFrag → List Char
  | [] => []
  | f :: fs => xserialize f ++ xserializeL fs
end

mutual
def xtokrev : XFrag → List XTok
  | .txt s => [XTok.charData s]
  | .el n al cs => XTok.endEl n :: (xtokrevL cs ++ [XTok.startEl n al])
def xtokrevL : List XFrag → List XTok
  | [] => []
  | f :: fs => xtokrevL fs ++ xtokrev f
end

mutual
def fsteps : XFrag → Nat
  | .txt _ => 1
  | .el _ _ cs => 2 + fstepsL cs
def fstepsL : List XFrag → Nat
  | [] => 0
  | f :: fs => fsteps f + fstepsL fs
end

mutual
def fsize : XFrag → Nat
  | .txt _ => 1
  | .el _ _ cs => 1 + fsizeL cs
def fsizeL : List XFrag → Nat
  | [] => 0
  | f :: fs => fsize f + fsizeL fs
end

def nameOKB (n : List Char) : Bool :=
  !n.isEmpty && isNameValid n && n.all (fun c => isNameByte c && !(c == ':'))

def anOKB (n : List Char) : Bool :=
  !n.isEmpty && isNameValid n && n.all isNameByte

def valOKB (v : List Char) : Bool :=
  v.all (fun c => !(c == '"' || c == '<' || c == '&'))

def alOKB (al : List (String × String)) : Bool :=
  al.all (fun a => anOKB a.1.data && valOKB a.2.data)

def isTxtB : XFrag → Bool
  | XFrag.txt _ => true
  | _ => false

def headNotTxtB : List XFrag → Bool
  | XFrag.txt _ :: _ => false
  | _ => true

mutual
/-- Decodable fragment: elements with validated names and attributes, text
runs nonempty and free of markup-starting characters and of a stray CDATA
terminator; two text runs never adjacent (the decoder would merge them). -/
def fragOKB : XFrag → Bool
  | .txt s => !s.data.isEmpty &&
      s.data.all (fun c => !(c == '<' || c == '&' || c == '\r')) &&
      !occursIn ("]]>".data) s.data
  | .el n al cs => nameOKB n.data && alOKB al && fragsOKB cs
def fragsOKB : List XFrag → Bool
  | [] => true
  | f :: fs => fragOKB f && ((!isTxtB f || headNotTxtB fs) && fragsOKB fs)
end

end StackedSVG
